import Mathlib

set_option linter.unusedVariables false

/-!
Verification of the text-analysis core of the informative-search extension
(file src/search/textAnalyzer.ts, types from src/search/searchTypes.ts).

Strings are modelled as `List Char`.  Whitespace and word-character classes
follow the ASCII behaviour of the JavaScript functions involved.  Quote,
backtick and brace characters are written via `Char.ofNat` with their ASCII
codes.  Regular-expression tests from the source are hand-translated into
deterministic scanning functions; each translation is documented next to the
regex it embeds.
-/

namespace TextAnalyzer

/-- ASCII whitespace, as matched by the source's `trim` and `\s`. -/
def isWS (c : Char) : Bool :=
  (c == ' ') || (c == '\t') || (c == '\n') || (c == '\r')

/-- Word character, as matched by the regex class `\w` (ASCII). -/
def isWordChar (c : Char) : Bool :=
  c.isAlpha || c.isDigit || (c == '_')

/-- The single-quote character. -/
def quoteS : Char := Char.ofNat 39

/-- The double-quote character. -/
def quoteD : Char := Char.ofNat 34

/-- The backtick character. -/
def tickChar : Char := Char.ofNat 96

/-- The opening curly brace character. -/
def openBrace : Char := Char.ofNat 123

/-- The closing curly brace character. -/
def closeBrace : Char := Char.ofNat 125

/-- JavaScript `String.prototype.trimLeft`. -/
def trimLeft (s : List Char) : List Char := s.dropWhile isWS

/-- JavaScript trimming of trailing whitespace. -/
def trimRight (s : List Char) : List Char := (s.reverse.dropWhile isWS).reverse

/-- JavaScript `String.prototype.trim`. -/
def trim (s : List Char) : List Char := trimRight (trimLeft s)

/-- JavaScript `s.startsWith(pattern)`. -/
def startsWith : (s : List Char) → (pattern : List Char) → Bool
  | _, [] => true
  | [], _ :: _ => false
  | c :: s, p :: ps => (c == p) && startsWith s ps

/-- JavaScript `s.endsWith(pattern)`. -/
def endsWith (s pattern : List Char) : Bool :=
  startsWith s.reverse pattern.reverse

/-- JavaScript `s.indexOf(pattern)`; `none` models the `-1` result. -/
def indexOf : (s : List Char) → (pattern : List Char) → Option Nat
  | [], p => if startsWith [] p then some 0 else none
  | c :: t, p =>
    if startsWith (c :: t) p then some 0 else (indexOf t p).map (· + 1)

/-- JavaScript `s.includes(pattern)`. -/
def includes (s pattern : List Char) : Bool := (indexOf s pattern).isSome

/-- JavaScript `s.lastIndexOf(pattern)`; `none` models the `-1` result. -/
def lastIndexOf (s pattern : List Char) : Option Nat :=
  ((List.range (s.length + 1)).filter (fun i => startsWith (s.drop i) pattern)).getLast?

/-- Test an `Option` against a Boolean predicate, `false` on `none`. -/
def optAny {α : Type} (p : α → Bool) : Option α → Bool
  | some a => p a
  | none => false

/-- The method `isInComment` of `TextAnalyzer` (textAnalyzer.ts lines 121-145).
The source's early-return chain of pure tests is written as a disjunction:
a `//` whose first index is at or before the column; or a `/*` in the text
before the column together with a `*/` in the text from the column on; or a
trimmed line starting with `#`. -/
def isInComment (lineText : List Char) (columnIndex : Nat) : Bool :=
  optAny (fun i => decide (i ≤ columnIndex)) (indexOf lineText ("//".toList))
  || ((lastIndexOf (lineText.take columnIndex) ("/*".toList)).isSome
      && (indexOf (lineText.drop columnIndex) ("*/".toList)).isSome)
  || startsWith (trim lineText) ['#']

/-- The counting loop of the method `isInString` (textAnalyzer.ts lines
150-169): counts of single quotes, double quotes and backticks that are not
immediately preceded by a backslash, with `prev` the character before the
current position (`none` at position 0). -/
def quoteCounts : Option Char → List Char → Nat × Nat × Nat
  | _, [] => (0, 0, 0)
  | prev, ch :: rest =>
    let r := quoteCounts (some ch) rest
    if (ch == quoteS) && !(prev == some '\\') then (r.1 + 1, r.2.1, r.2.2)
    else if (ch == quoteD) && !(prev == some '\\') then (r.1, r.2.1 + 1, r.2.2)
    else if (ch == tickChar) && !(prev == some '\\') then (r.1, r.2.1, r.2.2 + 1)
    else r

/-- The method `isInString` of `TextAnalyzer` (textAnalyzer.ts lines 150-169). -/
def isInString (lineText : List Char) (columnIndex : Nat) : Bool :=
  let counts := quoteCounts none (lineText.take columnIndex)
  decide (counts.1 % 2 = 1) || decide (counts.2.1 % 2 = 1)
    || decide (counts.2.2 % 2 = 1)

/-- Each character of `s` together with the character immediately before it
(`none` for the character at index 0), starting from preceding state `prev`. -/
def pairsFrom (prev : Option Char) (s : List Char) : List (Option Char × Char) :=
  (prev :: s.map some).zip s

/-- Specification-side counter for claim C4: the number of occurrences of `q`
in `s` that are not immediately preceded by a backslash character (the
character at index 0 always counts). -/
def countUnescapedSpec (q : Char) (s : List Char) : Nat :=
  (pairsFrom none s).countP (fun p => (p.2 == q) && !(p.1 == some '\\'))

/-! Helper lemmas about the scanning primitives. -/

theorem startsWith_nil_left {p : List Char} : startsWith [] p = true ↔ p = [] := by
  cases p <;> simp [startsWith]

theorem startsWith_nil_right (s : List Char) : startsWith s [] = true := by
  cases s <;> simp [startsWith]

theorem indexOf_starts {s p : List Char} {i : Nat} (h : indexOf s p = some i) :
    startsWith (s.drop i) p = true := by
  induction s generalizing i with
  | nil =>
    rw [indexOf] at h
    split at h
    · rename_i hs
      cases h
      simpa using hs
    · exact absurd h (by simp)
  | cons c t ih =>
    rw [indexOf] at h
    split at h
    · rename_i hs
      cases h
      simpa using hs
    · rcases Option.map_eq_some'.mp h with ⟨j, hj, rfl⟩
      simpa using ih hj

theorem indexOf_min {s p : List Char} {i : Nat}
    (h : startsWith (s.drop i) p = true) :
    ∃ j, indexOf s p = some j ∧ j ≤ i := by
  induction s generalizing i with
  | nil =>
    refine ⟨0, ?_, Nat.zero_le i⟩
    rw [indexOf]
    simp only [List.drop_nil] at h
    simp [h]
  | cons c t ih =>
    by_cases h0 : startsWith (c :: t) p = true
    · exact ⟨0, by rw [indexOf]; simp [h0], Nat.zero_le i⟩
    · cases i with
      | zero => exact absurd h h0
      | succ i' =>
        simp only [List.drop_succ_cons] at h
        obtain ⟨j, hj, hji⟩ := ih h
        refine ⟨j + 1, ?_, Nat.succ_le_succ hji⟩
        rw [indexOf]
        simp [h0, hj]

theorem indexOf_isSome_iff (s p : List Char) :
    (indexOf s p).isSome = true ↔ ∃ i, startsWith (s.drop i) p = true := by
  constructor
  · intro h
    obtain ⟨i, hi⟩ := Option.isSome_iff_exists.mp h
    exact ⟨i, indexOf_starts hi⟩
  · rintro ⟨i, hi⟩
    obtain ⟨j, hj, _⟩ := indexOf_min hi
    simp [hj]

theorem optAny_le_indexOf_iff (s p : List Char) (c : Nat) :
    optAny (fun i => decide (i ≤ c)) (indexOf s p) = true ↔
      ∃ i, i ≤ c ∧ startsWith (s.drop i) p = true := by
  constructor
  · intro h
    cases hx : indexOf s p with
    | none => rw [hx] at h; exact absurd h (by simp [optAny])
    | some i =>
      rw [hx] at h
      simp only [optAny, decide_eq_true_eq] at h
      exact ⟨i, h, indexOf_starts hx⟩
  · rintro ⟨i, hic, hi⟩
    obtain ⟨j, hj, hji⟩ := indexOf_min hi
    rw [hj]
    simp [optAny]
    omega

theorem getLast?_isSome_iff {α : Type} (l : List α) :
    l.getLast?.isSome = true ↔ l ≠ [] := by
  induction l with
  | nil => simp
  | cons a t ih =>
    cases t with
    | nil => simp [List.getLast?]
    | cons b u =>
      rw [List.getLast?_cons_cons]
      simp [ih]

theorem startsWith_ne_nil {x : List Char} {c : Char} {p : List Char}
    (h : startsWith x (c :: p) = true) : x ≠ [] := by
  cases x with
  | nil => exact absurd h (by simp [startsWith])
  | cons _ _ => simp

theorem lastIndexOf_isSome_iff (s p : List Char) :
    (lastIndexOf s p).isSome = true ↔ ∃ i, startsWith (s.drop i) p = true := by
  rw [lastIndexOf, getLast?_isSome_iff]
  constructor
  · intro h
    obtain ⟨i, hi⟩ := List.exists_mem_of_ne_nil _ h
    exact ⟨i, (List.mem_filter.mp hi).2⟩
  · rintro ⟨i, hi⟩
    intro hnil
    cases p with
    | nil =>
      have h0 : (0 : Nat) ∈ (List.range (s.length + 1)).filter
          (fun i => startsWith (s.drop i) []) := by
        refine List.mem_filter.mpr ⟨?_, ?_⟩
        · simp
        · exact startsWith_nil_right _
      rw [hnil] at h0
      exact absurd h0 (by simp)
    | cons c q =>
      have hne := startsWith_ne_nil hi
      have hlt : i < s.length := by
        by_contra hge
        push_neg at hge
        exact hne (List.drop_eq_nil_of_le hge)
      have h0 : i ∈ (List.range (s.length + 1)).filter
          (fun i => startsWith (s.drop i) (c :: q)) := by
        refine List.mem_filter.mpr ⟨?_, hi⟩
        simp
        omega
      rw [hnil] at h0
      exact absurd h0 (by simp)

/-- C3: for every line and column, `isInComment` returns true if and only if
the line has an occurrence of `//` starting at or before the column, or `/*`
occurs among the characters before the column while `*/` occurs among the
characters from the column onward, or the trimmed line begins with `#`. -/
theorem isInComment_spec (l : List Char) (c : Nat) :
    isInComment l c = true ↔
      ((∃ i, i ≤ c ∧ startsWith (l.drop i) ("//".toList) = true)
       ∨ ((∃ i, startsWith ((l.take c).drop i) ("/*".toList) = true)
          ∧ (∃ j, startsWith ((l.drop c).drop j) ("*/".toList) = true))
       ∨ startsWith (trim l) ['#'] = true) := by
  rw [isInComment]
  simp only [Bool.or_eq_true, Bool.and_eq_true]
  rw [optAny_le_indexOf_iff, lastIndexOf_isSome_iff, indexOf_isSome_iff]
  exact or_assoc

/-- The branch structure of `quoteCounts` agrees with per-pair counting. -/
theorem quoteCounts_eq (prev : Option Char) (s : List Char) :
    quoteCounts prev s =
      ((pairsFrom prev s).countP (fun p => (p.2 == quoteS) && !(p.1 == some '\\')),
       (pairsFrom prev s).countP (fun p => (p.2 == quoteD) && !(p.1 == some '\\')),
       (pairsFrom prev s).countP (fun p => (p.2 == tickChar) && !(p.1 == some '\\'))) := by
  induction s generalizing prev with
  | nil => simp [quoteCounts, pairsFrom]
  | cons ch rest ih =>
    have hp : pairsFrom prev (ch :: rest) = (prev, ch) :: pairsFrom (some ch) rest := by
      simp [pairsFrom]
    rw [hp]
    simp only [List.countP_cons]
    rw [quoteCounts]
    simp only [ih]
    by_cases h1 : ((ch == quoteS) && !(prev == some '\\')) = true
    · have h2 : ((ch == quoteD) && !(prev == some '\\')) = false := by
        have hS : ch = quoteS := by
          have := (Bool.and_eq_true _ _).mp h1
          exact beq_iff_eq.mp this.1
        subst hS
        simp [quoteS, quoteD]
      have h3 : ((ch == tickChar) && !(prev == some '\\')) = false := by
        have hS : ch = quoteS := by
          have := (Bool.and_eq_true _ _).mp h1
          exact beq_iff_eq.mp this.1
        subst hS
        simp [quoteS, tickChar]
      simp [h1, h2, h3]
    · rw [if_neg (by simpa using h1)]
      by_cases h2 : ((ch == quoteD) && !(prev == some '\\')) = true
      · have h3 : ((ch == tickChar) && !(prev == some '\\')) = false := by
          have hD : ch = quoteD := by
            have := (Bool.and_eq_true _ _).mp h2
            exact beq_iff_eq.mp this.1
          subst hD
          simp [quoteD, tickChar]
        simp [h1, h2, h3]
      · rw [if_neg (by simpa using h2)]
        by_cases h3 : ((ch == tickChar) && !(prev == some '\\')) = true
        · simp [h1, h2, h3]
        · rw [if_neg (by simpa using h3)]
          simp [h1, h2, h3]

/-- C4: for every line and column, `isInString` returns true if and only if
one of the three counters — occurrences of single quote, double quote and
backtick among the characters at indices strictly below the column that are
not immediately preceded by a backslash — is odd. -/
theorem isInString_spec (l : List Char) (c : Nat) :
    isInString l c = true ↔
      (countUnescapedSpec quoteS (l.take c) % 2 = 1
       ∨ countUnescapedSpec quoteD (l.take c) % 2 = 1
       ∨ countUnescapedSpec tickChar (l.take c) % 2 = 1) := by
  rw [isInString]
  simp only [quoteCounts_eq, countUnescapedSpec, Bool.or_eq_true, decide_eq_true_eq]
  exact or_assoc

/-- C6 counterexample: the claim states that
`isInString("const x = 'a,b';", 15)` returns true, but column 15 is the
semicolon after the closing quote, so both single quotes lie before the
column and the parity is even: the function returns false. -/
theorem isInString_example_cex :
    isInString ("const x = \x27a,b\x27;".toList) 15 = false := by decide

/-- C6 amended: `isInString("const x = 'a,b';", 15)` returns false (column 15
is past the closing quote), and `isInString("const x = 'a,b';", 5)` returns
false. -/
theorem isInString_example :
    isInString ("const x = \x27a,b\x27;".toList) 15 = false
    ∧ isInString ("const x = \x27a,b\x27;".toList) 5 = false := by decide

/-! The classifier: `UsageCategory` (searchTypes.ts lines 10-25), the
`MatchContext` record (searchTypes.ts lines 52-67), and the ordered test
chain of `categorizeMatch` (textAnalyzer.ts lines 8-87).  Each regex used by
a test is hand-translated into a deterministic scanner; the translation
notes state the regex. -/

/-- The enumeration `UsageCategory` from searchTypes.ts. -/
inductive UsageCategory where
  | IMPORT
  | EXPORT
  | FUNCTION_DEFINITION
  | FUNCTION_CALL
  | VARIABLE_DECLARATION
  | VARIABLE_USAGE
  | COMPONENT_USAGE
  | TYPE_DEFINITION
  | INTERFACE_DEFINITION
  | CLASS_DEFINITION
  | PROPERTY_ACCESS
  | COMMENT
  | STRING_LITERAL
  | OTHER
deriving DecidableEq, Repr

/-- The `MatchContext` record from searchTypes.ts (the `functionArguments`
field is declared there as well; optional fields become `Option`). -/
structure MatchContext where
  functionName : Option (List Char) := none
  className : Option (List Char) := none
  isInComment : Bool
  isInString : Bool
  surroundingLines : Option (List (List Char)) := none
  importedItems : Option (List (List Char)) := none
  functionArguments : Option (List (List Char)) := none

/-- Consume a literal pattern from the front of `s`. -/
def lit (pattern s : List Char) : Option (List Char) :=
  if startsWith s pattern then some (s.drop pattern.length) else none

/-- Consume `kw` followed by `\s+` (at least one whitespace, maximal run). -/
def kwTail (kw s : List Char) : Option (List Char) :=
  match lit kw s with
  | some (c :: r) => if isWS c then some (r.dropWhile isWS) else none
  | _ => none

/-- Test for regexes of the shape `^pattern\s+`. -/
def litWS (pattern s : List Char) : Bool :=
  match lit pattern s with
  | some (c :: _) => isWS c
  | _ => false

/-- First character is whitespace. -/
def headWS : List Char → Bool
  | c :: _ => isWS c
  | [] => false

/-- First character is a word character. -/
def headWord : List Char → Bool
  | c :: _ => isWordChar c
  | [] => false

/-- Some suffix of the string satisfies `p`: models an unanchored search or a
leading `.*` in a regex. -/
def anySuffix (p : List Char → Bool) : List Char → Bool
  | [] => p []
  | c :: t => p (c :: t) || anySuffix p t

/-- Leftmost suffix at which the partial parse `p` succeeds: models an
unanchored regex search returning the first match. -/
def firstSuffix (p : List Char → Option (List Char)) : List Char → Option (List Char)
  | [] => p []
  | c :: t =>
    match p (c :: t) with
    | some r => some r
    | none => firstSuffix p t

/-- Consume `\s+`: at least one whitespace character, maximal run (valid
whenever the following regex atom cannot match whitespace). -/
def wsPlus : List Char → Option (List Char)
  | c :: t => if isWS c then some (t.dropWhile isWS) else none
  | [] => none

/-- Consume `(\w+)`: capture a maximal nonempty word-character run (valid
whenever the following regex atom cannot match a word character). -/
def wordPlus : List Char → Option (List Char × List Char)
  | c :: t =>
    if isWordChar c then some (c :: t.takeWhile isWordChar, t.dropWhile isWordChar)
    else none
  | [] => none

/-- Consume one fixed character. -/
def charLit (c : Char) : List Char → Option (List Char)
  | d :: t => if d = c then some t else none
  | [] => none

/-- Regex `^import\s+.*from\s+`. -/
def impFromPat (l : List Char) : Bool :=
  match lit ("import".toList) l with
  | some (c :: r) =>
    isWS c && anySuffix (fun t =>
      match lit ("from".toList) t with
      | some (d :: _) => isWS d
      | _ => false) r
  | _ => false

/-- Tail shape `=\s+require` of the require-import regexes. -/
def eqWsRequire (t : List Char) : Bool :=
  match t with
  | '=' :: u => headWS u && startsWith (u.dropWhile isWS) ("require".toList)
  | _ => false

/-- Regex `^import\s+.*=\s+require`. -/
def impRequirePat (l : List Char) : Bool :=
  match lit ("import".toList) l with
  | some (c :: r) => isWS c && anySuffix eqWsRequire r
  | _ => false

/-- Regex `^const\s+.*=\s+require`. -/
def constRequirePat (l : List Char) : Bool :=
  match lit ("const".toList) l with
  | some (c :: r) => isWS c && anySuffix eqWsRequire r
  | _ => false

/-- Regex `^from\s+.*import` (Python-style import). -/
def pyFromImpPat (l : List Char) : Bool :=
  match lit ("from".toList) l with
  | some (c :: r) => isWS c && anySuffix (fun t => startsWith t ("import".toList)) r
  | _ => false

/-- The method `isImportStatement` (textAnalyzer.ts lines 174-187). -/
def isImportStatement (line searchTerm : List Char) : Bool :=
  impFromPat line || impRequirePat line || constRequirePat line
  || pyFromImpPat line || litWS ("#include".toList) line
  || litWS ("using".toList) line

/-- Regex `^export\s*\x7b`. -/
def exportBracePat (l : List Char) : Bool :=
  match lit ("export".toList) l with
  | some r =>
    match r.dropWhile isWS with
    | b :: _ => b == openBrace
    | [] => false
  | none => false

/-- Regex `^module\.exports\s*=`. -/
def modExportsPat (l : List Char) : Bool :=
  match lit ("module.exports".toList) l with
  | some r =>
    match r.dropWhile isWS with
    | '=' :: _ => true
    | _ => false
  | none => false

/-- The method `isExportStatement` (textAnalyzer.ts lines 192-200): the first
regex `^export\s+(default\s+)?` matches exactly when `export` is followed by
whitespace. -/
def isExportStatement (line searchTerm : List Char) : Bool :=
  litWS ("export".toList) line || exportBracePat line || modExportsPat line

/-- Tail shape `\)\s*=>` inside the arrow-function regexes. -/
def parenWsArrow (t : List Char) : Bool :=
  match t with
  | ')' :: u => startsWith (u.dropWhile isWS) ("=>".toList)
  | _ => false

/-- Tail shape `=\s*\(.*\)\s*=>` inside `^const\s+.*=\s*\(.*\)\s*=>`. -/
def eqParenArrow (t : List Char) : Bool :=
  match t with
  | '=' :: u =>
    match u.dropWhile isWS with
    | '(' :: v => anySuffix parenWsArrow v
    | _ => false
  | _ => false

/-- Tail shape `:\s*\(.*\)\s*=>` of the regex `^.*:\s*\(.*\)\s*=>`. -/
def colonParenArrow (t : List Char) : Bool :=
  match t with
  | ':' :: u =>
    match u.dropWhile isWS with
    | '(' :: v => anySuffix parenWsArrow v
    | _ => false
  | _ => false

/-- Tail shape `=\s*function` of the regex `^const\s+.*=\s*function`. -/
def eqFunctionPat (t : List Char) : Bool :=
  match t with
  | '=' :: u => startsWith (u.dropWhile isWS) ("function".toList)
  | _ => false

/-- Regex `^const\s+.*=\s*\(.*\)\s*=>`. -/
def jsFnConstArrow (l : List Char) : Bool :=
  match lit ("const".toList) l with
  | some (c :: r) => isWS c && anySuffix eqParenArrow r
  | _ => false

/-- Regex `^const\s+.*=\s*function`. -/
def jsFnConstFunction (l : List Char) : Bool :=
  match lit ("const".toList) l with
  | some (c :: r) => isWS c && anySuffix eqFunctionPat r
  | _ => false

/-- Regex `^.*:\s*\(.*\)\s*=>`. -/
def jsFnColonArrow (l : List Char) : Bool := anySuffix colonParenArrow l

/-- Regexes of the shape `^kw1\s+kw2\s+` (e.g. `^async\s+function\s+`). -/
def kwThen (kw1 kw2 : List Char) (l : List Char) : Bool :=
  match kwTail kw1 l with
  | some r => litWS kw2 r
  | none => false

/-- The JavaScript/TypeScript pattern set of `isFunctionDefinition`. -/
def jsFunctionPats (l : List Char) : Bool :=
  litWS ("function".toList) l || jsFnConstArrow l || jsFnConstFunction l
  || jsFnColonArrow l || kwThen ("async".toList) ("function".toList) l

/-- The Python pattern set of `isFunctionDefinition`. -/
def pyFunctionPats (l : List Char) : Bool :=
  litWS ("def".toList) l || kwThen ("async".toList) ("def".toList) l

/-- Tail shape `\s+\w+\s*\(` of the Java/C# definition regex. -/
def wsWordParen (t : List Char) : Bool :=
  headWS t &&
    (let u := t.dropWhile isWS
     headWord u &&
       (match (u.dropWhile isWordChar).dropWhile isWS with
        | '(' :: _ => true
        | _ => false))

/-- Regex `^\s*(public|private|protected|static).*\s+\w+\s*\(` (Java/C#). -/
def javaFunctionPats (l : List Char) : Bool :=
  let l1 := l.dropWhile isWS
  let rest? :=
    match lit ("public".toList) l1 with
    | some r => some r
    | none =>
      match lit ("private".toList) l1 with
      | some r => some r
      | none =>
        match lit ("protected".toList) l1 with
        | some r => some r
        | none => lit ("static".toList) l1
  match rest? with
  | some r => anySuffix wsWordParen r
  | none => false

/-- The method `isFunctionDefinition` (textAnalyzer.ts lines 205-243): the
paren check on the text after the match is evaluated before the selected
per-language pattern set. -/
def isFunctionDefinition (line searchTerm beforeMatch afterMatch languageId : List Char) : Bool :=
  startsWith afterMatch ['('] ||
  (if languageId = "python".toList then pyFunctionPats line
   else if languageId = "java".toList ∨ languageId = "csharp".toList then javaFunctionPats line
   else jsFunctionPats line)

/-- Regex `^(const|let|var)\s+`. -/
def declKeywordPat (l : List Char) : Bool :=
  litWS ("const".toList) l || litWS ("let".toList) l || litWS ("var".toList) l

/-- Regex `^.*:\s*[A-Za-z]` (TypeScript type-annotation shape). -/
def colonTypePat (l : List Char) : Bool :=
  anySuffix (fun t =>
    match t with
    | ':' :: u =>
      match u.dropWhile isWS with
      | d :: _ => d.isAlpha
      | [] => false
    | _ => false) l

/-- Regex `^\s*\w+\s*=` (Python assignment). -/
def pyAssignPat (l : List Char) : Bool :=
  let u := l.dropWhile isWS
  headWord u &&
    (match (u.dropWhile isWordChar).dropWhile isWS with
     | '=' :: _ => true
     | _ => false)

/-- The method `isVariableDeclaration` (textAnalyzer.ts lines 248-275): the
Java/C# language ids keep the JavaScript pattern set. -/
def isVariableDeclaration (line searchTerm beforeMatch afterMatch languageId : List Char) : Bool :=
  startsWith afterMatch ['='] || startsWith afterMatch [':'] ||
  (if languageId = "python".toList then pyAssignPat line
   else declKeywordPat line || colonTypePat line)

/-- The method `isFunctionCall` (textAnalyzer.ts lines 280-283). -/
def isFunctionCall (line searchTerm afterMatch : List Char) : Bool :=
  startsWith (trimLeft afterMatch) ['(']

/-- The method `isComponentUsage` (textAnalyzer.ts lines 288-300).  The
source builds the two regexes dynamically from the raw search term; this
embedding gives the term its literal reading, which agrees with the source
whenever the term contains no regex metacharacters. -/
def isComponentUsage (line searchTerm languageId : List Char) : Bool :=
  if languageId = "typescriptreact".toList ∨ languageId = "javascriptreact".toList
      ∨ languageId = "vue".toList then
    anySuffix (fun t =>
      match lit ('<' :: searchTerm) t with
      | some (c :: _) => isWS c || (c == '/') || (c == '>')
      | _ => false) line
    || anySuffix (fun t => startsWith t ('<' :: '/' :: (searchTerm ++ ['>']))) line
  else false

/-- The method `isTypeDefinition` (textAnalyzer.ts lines 305-316). -/
def isTypeDefinition (line searchTerm beforeMatch languageId : List Char) : Bool :=
  if languageId = "typescript".toList ∨ languageId = "typescriptreact".toList then
    litWS ("type".toList) line || kwThen ("export".toList) ("type".toList) line
  else false

/-- The method `isInterfaceDefinition` (textAnalyzer.ts lines 321-332). -/
def isInterfaceDefinition (line searchTerm beforeMatch languageId : List Char) : Bool :=
  if languageId = "typescript".toList ∨ languageId = "typescriptreact".toList then
    litWS ("interface".toList) line || kwThen ("export".toList) ("interface".toList) line
  else false

/-- The method `isClassDefinition` (textAnalyzer.ts lines 337-347). -/
def isClassDefinition (line searchTerm beforeMatch languageId : List Char) : Bool :=
  litWS ("class".toList) line
  || kwThen ("export".toList) ("class".toList) line
  || kwThen ("abstract".toList) ("class".toList) line
  || kwThen ("public".toList) ("class".toList) line
  || kwThen ("private".toList) ("class".toList) line

/-- The method `isPropertyAccess` (textAnalyzer.ts lines 352-364). -/
def isPropertyAccess (line searchTerm beforeMatch afterMatch : List Char) : Bool :=
  endsWith beforeMatch ['.'] || startsWith afterMatch ['.']
  || (endsWith beforeMatch ['['] && startsWith afterMatch [']'])

/-- Regex `^(const|let|var|function)\s*$`. -/
def declKwOnly (s : List Char) : Bool :=
  (startsWith s ("const".toList) && (s.drop 5).all isWS)
  || (startsWith s ("let".toList) && (s.drop 3).all isWS)
  || (startsWith s ("var".toList) && (s.drop 3).all isWS)
  || (startsWith s ("function".toList) && (s.drop 8).all isWS)

/-- The method `isVariableUsage` (textAnalyzer.ts lines 369-380). -/
def isVariableUsage (line searchTerm beforeMatch afterMatch : List Char) : Bool :=
  !(declKwOnly beforeMatch)
  && !(startsWith (trimLeft afterMatch) ['('])
  && (!(endsWith beforeMatch ['.']) && !(endsWith beforeMatch ['[']))

/-- The method `categorizeMatch` (textAnalyzer.ts lines 8-87).  The source
binds `trimmedLine`, `beforeMatch` and `afterMatch` once at entry; here the
defining expressions are substituted inline at each use. -/
def categorizeMatch (lineText : List Char) (columnIndex : Nat) (searchTerm : List Char)
    (context : MatchContext) (allLines : List (List Char)) (lineNumber : Nat)
    (languageId : List Char) : UsageCategory :=
  if context.isInComment then UsageCategory.COMMENT
  else if context.isInString then UsageCategory.STRING_LITERAL
  else if isImportStatement (trim lineText) searchTerm then UsageCategory.IMPORT
  else if isExportStatement (trim lineText) searchTerm then UsageCategory.EXPORT
  else if isFunctionDefinition (trim lineText) searchTerm (trim (lineText.take columnIndex))
      (trim (lineText.drop (columnIndex + searchTerm.length))) languageId then
    UsageCategory.FUNCTION_DEFINITION
  else if isVariableDeclaration (trim lineText) searchTerm (trim (lineText.take columnIndex))
      (trim (lineText.drop (columnIndex + searchTerm.length))) languageId then
    UsageCategory.VARIABLE_DECLARATION
  else if isFunctionCall (trim lineText) searchTerm
      (trim (lineText.drop (columnIndex + searchTerm.length))) then
    UsageCategory.FUNCTION_CALL
  else if isComponentUsage (trim lineText) searchTerm languageId then
    UsageCategory.COMPONENT_USAGE
  else if isTypeDefinition (trim lineText) searchTerm (trim (lineText.take columnIndex))
      languageId then
    UsageCategory.TYPE_DEFINITION
  else if isInterfaceDefinition (trim lineText) searchTerm (trim (lineText.take columnIndex))
      languageId then
    UsageCategory.INTERFACE_DEFINITION
  else if isClassDefinition (trim lineText) searchTerm (trim (lineText.take columnIndex))
      languageId then
    UsageCategory.CLASS_DEFINITION
  else if isPropertyAccess (trim lineText) searchTerm (trim (lineText.take columnIndex))
      (trim (lineText.drop (columnIndex + searchTerm.length))) then
    UsageCategory.PROPERTY_ACCESS
  else if isVariableUsage (trim lineText) searchTerm (trim (lineText.take columnIndex))
      (trim (lineText.drop (columnIndex + searchTerm.length))) then
    UsageCategory.VARIABLE_USAGE
  else UsageCategory.OTHER

/-! Claims about `categorizeMatch`. -/

theorem dropWhile_head_false {p : Char → Bool} {l : List Char} {a : Char}
    {r : List Char} (h : l.dropWhile p = a :: r) : p a = false := by
  induction l with
  | nil => simp at h
  | cons b t ih =>
    rw [List.dropWhile_cons] at h
    split at h
    · exact ih h
    · rename_i hb
      injection h with h1 h2
      subst h1
      simpa using hb

theorem trim_prefix_trimLeft (s : List Char) : trim s <+: trimLeft s := by
  rw [trim, trimRight]
  have hsuf : (trimLeft s).reverse.dropWhile isWS <:+ (trimLeft s).reverse :=
    List.dropWhile_suffix _
  obtain ⟨t, ht⟩ := hsuf
  refine ⟨t.reverse, ?_⟩
  rw [← List.reverse_append, ht, List.reverse_reverse]

/-- Trimming is left-idempotent: `trimLeft` after `trim` changes nothing. -/
theorem trimLeft_trim (s : List Char) : trimLeft (trim s) = trim s := by
  cases htr : trim s with
  | nil => simp [trimLeft]
  | cons a v =>
    have hpre := trim_prefix_trimLeft s
    rw [htr] at hpre
    obtain ⟨t, ht⟩ := hpre
    have hl : trimLeft s = a :: (v ++ t) := by rw [← ht]; simp
    have ha : isWS a = false := dropWhile_head_false (p := isWS) (l := s) hl
    rw [trimLeft, List.dropWhile_cons_of_neg (by simp [ha])]

/-- C1: `categorizeMatch` always returns one of the fourteen members of
`UsageCategory`, for every input including unrecognized language ids, and
returns `OTHER` exactly in the default case, when none of the thirteen tests
of the ordered chain succeeds. -/
theorem categorizeMatch_total (lineText : List Char) (columnIndex : Nat)
    (searchTerm : List Char) (context : MatchContext) (allLines : List (List Char))
    (lineNumber : Nat) (languageId : List Char) :
    (categorizeMatch lineText columnIndex searchTerm context allLines lineNumber languageId ∈
      [UsageCategory.IMPORT, UsageCategory.EXPORT, UsageCategory.FUNCTION_DEFINITION,
       UsageCategory.FUNCTION_CALL, UsageCategory.VARIABLE_DECLARATION,
       UsageCategory.VARIABLE_USAGE, UsageCategory.COMPONENT_USAGE,
       UsageCategory.TYPE_DEFINITION, UsageCategory.INTERFACE_DEFINITION,
       UsageCategory.CLASS_DEFINITION, UsageCategory.PROPERTY_ACCESS,
       UsageCategory.COMMENT, UsageCategory.STRING_LITERAL, UsageCategory.OTHER])
    ∧ (context.isInComment = false → context.isInString = false →
       isImportStatement (trim lineText) searchTerm = false →
       isExportStatement (trim lineText) searchTerm = false →
       isFunctionDefinition (trim lineText) searchTerm (trim (lineText.take columnIndex))
         (trim (lineText.drop (columnIndex + searchTerm.length))) languageId = false →
       isVariableDeclaration (trim lineText) searchTerm (trim (lineText.take columnIndex))
         (trim (lineText.drop (columnIndex + searchTerm.length))) languageId = false →
       isFunctionCall (trim lineText) searchTerm
         (trim (lineText.drop (columnIndex + searchTerm.length))) = false →
       isComponentUsage (trim lineText) searchTerm languageId = false →
       isTypeDefinition (trim lineText) searchTerm (trim (lineText.take columnIndex))
         languageId = false →
       isInterfaceDefinition (trim lineText) searchTerm (trim (lineText.take columnIndex))
         languageId = false →
       isClassDefinition (trim lineText) searchTerm (trim (lineText.take columnIndex))
         languageId = false →
       isPropertyAccess (trim lineText) searchTerm (trim (lineText.take columnIndex))
         (trim (lineText.drop (columnIndex + searchTerm.length))) = false →
       isVariableUsage (trim lineText) searchTerm (trim (lineText.take columnIndex))
         (trim (lineText.drop (columnIndex + searchTerm.length))) = false →
       categorizeMatch lineText columnIndex searchTerm context allLines lineNumber
         languageId = UsageCategory.OTHER) := by
  constructor
  · generalize categorizeMatch lineText columnIndex searchTerm context allLines
      lineNumber languageId = u
    cases u <;> simp
  · intro hc hs h3 h4 h5 h6 h7 h8 h9 h10 h11 h12 h13
    rw [categorizeMatch]
    simp [hc, hs, h3, h4, h5, h6, h7, h8, h9, h10, h11, h12, h13]

/-- C1 witness: a concrete input on which every test of the chain fails and
the result is `OTHER`. -/
theorem categorizeMatch_total_witness :
    categorizeMatch ("a[x + 1]".toList) 2 ("x".toList)
      ⟨none, none, false, false, none, none, none⟩ [] 0 ("javascript".toList)
      = UsageCategory.OTHER :=
  (categorizeMatch_total ("a[x + 1]".toList) 2 ("x".toList)
      ⟨none, none, false, false, none, none, none⟩ [] 0 ("javascript".toList)).2
    rfl rfl (by decide) (by decide) (by decide) (by decide) (by decide)
    (by decide) (by decide) (by decide) (by decide) (by decide) (by decide)

/-- C2: if the context says the match is in a comment, the result is COMMENT
regardless of every other argument and context field; if it is not in a
comment but in a string, the result is STRING_LITERAL regardless of every
other argument. -/
theorem categorizeMatch_comment_string_priority (lineText : List Char)
    (columnIndex : Nat) (searchTerm : List Char) (context : MatchContext)
    (allLines : List (List Char)) (lineNumber : Nat) (languageId : List Char) :
    (context.isInComment = true →
      categorizeMatch lineText columnIndex searchTerm context allLines lineNumber
        languageId = UsageCategory.COMMENT)
    ∧ (context.isInComment = false → context.isInString = true →
      categorizeMatch lineText columnIndex searchTerm context allLines lineNumber
        languageId = UsageCategory.STRING_LITERAL) := by
  constructor
  · intro h
    rw [categorizeMatch]
    simp [h]
  · intro h1 h2
    rw [categorizeMatch]
    simp [h1, h2]

/-- C2 witness: concrete contexts exercising both priority rules. -/
theorem categorizeMatch_comment_string_priority_witness :
    categorizeMatch [] 0 [] ⟨none, none, true, false, none, none, none⟩ [] 0 []
      = UsageCategory.COMMENT
    ∧ categorizeMatch [] 0 [] ⟨none, none, false, true, none, none, none⟩ [] 0 []
      = UsageCategory.STRING_LITERAL :=
  ⟨(categorizeMatch_comment_string_priority [] 0 []
      ⟨none, none, true, false, none, none, none⟩ [] 0 []).1 rfl,
   (categorizeMatch_comment_string_priority [] 0 []
      ⟨none, none, false, true, none, none, none⟩ [] 0 []).2 rfl rfl⟩

/-- C5 counterexample: on `"const total = x.value"` at column 15 with term
`"value"` and a plain context, the result is not PROPERTY_ACCESS: the line
starts with `const ` and so the variable-declaration test, which runs before
the property-access test, fires first. -/
theorem categorizeMatch_property_access_cex :
    categorizeMatch ("const total = x.value".toList) 15 ("value".toList)
      ⟨none, none, false, false, none, none, none⟩ [] 0 ("javascript".toList)
      ≠ UsageCategory.PROPERTY_ACCESS := by decide

/-- C5 amended: for every context whose comment and string flags are false
and all other arguments arbitrary,
`categorizeMatch("const total = x.value", 15, "value", ctx, ..., "javascript")`
returns VARIABLE_DECLARATION (the leading `const ` matches the
variable-declaration pattern, which is tested before property access). -/
theorem categorizeMatch_const_line_var_decl (context : MatchContext)
    (allLines : List (List Char)) (lineNumber : Nat)
    (h1 : context.isInComment = false) (h2 : context.isInString = false) :
    categorizeMatch ("const total = x.value".toList) 15 ("value".toList)
      context allLines lineNumber ("javascript".toList)
      = UsageCategory.VARIABLE_DECLARATION := by
  obtain ⟨fn, cn, ic, istr, sl, ii, fa⟩ := context
  simp only at h1 h2
  subst h1
  subst h2
  rfl

/-- C5 amended witness: the amended statement at a concrete context. -/
theorem categorizeMatch_const_line_var_decl_witness :
    categorizeMatch ("const total = x.value".toList) 15 ("value".toList)
      ⟨none, none, false, false, none, none, none⟩ [] 0 ("javascript".toList)
      = UsageCategory.VARIABLE_DECLARATION :=
  categorizeMatch_const_line_var_decl
    ⟨none, none, false, false, none, none, none⟩ [] 0 rfl rfl

set_option maxHeartbeats 2000000 in
/-- C9: `categorizeMatch` never returns FUNCTION_CALL.  The text after the
match is trimmed once at entry, so when the function-definition test has
failed, its leading-parenthesis disjunct has failed, and the function-call
test (the same check after an idempotent left-trim) must fail too. -/
theorem categorizeMatch_no_function_call (lineText : List Char) (columnIndex : Nat)
    (searchTerm : List Char) (context : MatchContext) (allLines : List (List Char))
    (lineNumber : Nat) (languageId : List Char) :
    categorizeMatch lineText columnIndex searchTerm context allLines lineNumber
      languageId ≠ UsageCategory.FUNCTION_CALL := by
  intro heq
  rw [categorizeMatch] at heq
  by_cases h1 : context.isInComment = true
  · rw [if_pos h1] at heq; exact UsageCategory.noConfusion heq
  rw [if_neg h1] at heq
  by_cases h2 : context.isInString = true
  · rw [if_pos h2] at heq; exact UsageCategory.noConfusion heq
  rw [if_neg h2] at heq
  by_cases h3 : isImportStatement (trim lineText) searchTerm = true
  · rw [if_pos h3] at heq; exact UsageCategory.noConfusion heq
  rw [if_neg h3] at heq
  by_cases h4 : isExportStatement (trim lineText) searchTerm = true
  · rw [if_pos h4] at heq; exact UsageCategory.noConfusion heq
  rw [if_neg h4] at heq
  by_cases h5 : isFunctionDefinition (trim lineText) searchTerm
      (trim (lineText.take columnIndex))
      (trim (lineText.drop (columnIndex + searchTerm.length))) languageId = true
  · rw [if_pos h5] at heq; exact UsageCategory.noConfusion heq
  rw [if_neg h5] at heq
  by_cases h6 : isVariableDeclaration (trim lineText) searchTerm
      (trim (lineText.take columnIndex))
      (trim (lineText.drop (columnIndex + searchTerm.length))) languageId = true
  · rw [if_pos h6] at heq; exact UsageCategory.noConfusion heq
  rw [if_neg h6] at heq
  by_cases h7 : isFunctionCall (trim lineText) searchTerm
      (trim (lineText.drop (columnIndex + searchTerm.length))) = true
  · rw [Bool.not_eq_true, isFunctionDefinition] at h5
    have h5a : startsWith
        (trim (lineText.drop (columnIndex + searchTerm.length))) ['('] = false :=
      (Bool.or_eq_false_iff.mp h5).1
    rw [isFunctionCall, trimLeft_trim] at h7
    exact absurd h7 (by simp [h5a])
  rw [if_neg h7] at heq
  by_cases h8 : isComponentUsage (trim lineText) searchTerm languageId = true
  · rw [if_pos h8] at heq; exact UsageCategory.noConfusion heq
  rw [if_neg h8] at heq
  by_cases h9 : isTypeDefinition (trim lineText) searchTerm
      (trim (lineText.take columnIndex)) languageId = true
  · rw [if_pos h9] at heq; exact UsageCategory.noConfusion heq
  rw [if_neg h9] at heq
  by_cases h10 : isInterfaceDefinition (trim lineText) searchTerm
      (trim (lineText.take columnIndex)) languageId = true
  · rw [if_pos h10] at heq; exact UsageCategory.noConfusion heq
  rw [if_neg h10] at heq
  by_cases h11 : isClassDefinition (trim lineText) searchTerm
      (trim (lineText.take columnIndex)) languageId = true
  · rw [if_pos h11] at heq; exact UsageCategory.noConfusion heq
  rw [if_neg h11] at heq
  by_cases h12 : isPropertyAccess (trim lineText) searchTerm
      (trim (lineText.take columnIndex))
      (trim (lineText.drop (columnIndex + searchTerm.length))) = true
  · rw [if_pos h12] at heq; exact UsageCategory.noConfusion heq
  rw [if_neg h12] at heq
  by_cases h13 : isVariableUsage (trim lineText) searchTerm
      (trim (lineText.take columnIndex))
      (trim (lineText.drop (columnIndex + searchTerm.length))) = true
  · rw [if_pos h13] at heq; exact UsageCategory.noConfusion heq
  rw [if_neg h13] at heq
  exact UsageCategory.noConfusion heq

/-! Backward context scans and the import-item extractor
(textAnalyzer.ts lines 385-462). -/

/-- Capture of `^(async\s+)?function\s+(\w+)\s*\(` (group 2).  Greedy runs
are maximal; this is exact because the character classes meeting at each
boundary are disjoint, and a failed optional `async` group leaves a line
that cannot start with `function`. -/
def funcPat1 (l : List Char) : Option (List Char) :=
  let l1 :=
    match lit ("async".toList) l with
    | some (c :: r) => if isWS c then r.dropWhile isWS else l
    | _ => l
  match lit ("function".toList) l1 with
  | some (c :: r) =>
    if isWS c then
      match wordPlus (r.dropWhile isWS) with
      | some (w, r2) =>
        match charLit '(' (r2.dropWhile isWS) with
        | some _ => some w
        | none => none
      | none => none
    else none
  | _ => none

/-- Capture of `^(const|let|var)\s+(\w+)\s*=\s*.*=>` (group 2): keyword,
whitespace, word capture, optional whitespace, `=`, then `=>` anywhere in
the remainder (the `\s*.*` in between matches any characters). -/
def funcPat2 (l : List Char) : Option (List Char) :=
  let t0 :=
    match kwTail ("const".toList) l with
    | some r => some r
    | none =>
      match kwTail ("let".toList) l with
      | some r => some r
      | none => kwTail ("var".toList) l
  match t0 with
  | none => none
  | some r1 =>
    match wordPlus r1 with
    | none => none
    | some (w, r2) =>
      match charLit '=' (r2.dropWhile isWS) with
      | none => none
      | some r3 => if includes r3 ("=>".toList) then some w else none

/-- Capture of `^(\w+)\s*\(` (group 1). -/
def funcPat3 (l : List Char) : Option (List Char) :=
  match wordPlus l with
  | some (w, r) =>
    match charLit '(' (r.dropWhile isWS) with
    | some _ => some w
    | none => none
  | none => none

/-- One iteration of the backward scan of `getFunctionContext`: the three
patterns tried in order on the trimmed line; the method pattern is accepted
only if the line does not contain `if`, `for` or `while`, and a rejected
method pattern lets the scan continue, as in the source. -/
def lineFuncMatch (line : List Char) : Option (List Char) :=
  match funcPat1 line with
  | some w => some w
  | none =>
    match funcPat2 line with
    | some w => some w
    | none =>
      match funcPat3 line with
      | some w =>
        if includes line ("if".toList) || includes line ("for".toList)
            || includes line ("while".toList) then none
        else some w
      | none => none

/-- The method `getFunctionContext` (textAnalyzer.ts lines 393-418): a
backward scan from `lineNumber` down to line 0, returning the first capture. -/
def getFunctionContext (allLines : List (List Char)) : Nat → Option (List Char)
  | 0 => lineFuncMatch (trim (allLines.getD 0 []))
  | n + 1 =>
    match lineFuncMatch (trim (allLines.getD (n + 1) [])) with
    | some w => some w
    | none => getFunctionContext allLines n

/-- Capture of `^(export\s+)?(abstract\s+)?class\s+(\w+)` (group 3). -/
def classPat (l : List Char) : Option (List Char) :=
  let l1 :=
    match kwTail ("export".toList) l with
    | some r => r
    | none => l
  let l2 :=
    match kwTail ("abstract".toList) l1 with
    | some r => r
    | none => l1
  match kwTail ("class".toList) l2 with
  | none => none
  | some r =>
    match wordPlus r with
    | some (w, _) => some w
    | none => none

/-- The method `getClassContext` (textAnalyzer.ts lines 423-435). -/
def getClassContext (allLines : List (List Char)) : Nat → Option (List Char)
  | 0 => classPat (trim (allLines.getD 0 []))
  | n + 1 =>
    match classPat (trim (allLines.getD (n + 1) [])) with
    | some w => some w
    | none => getClassContext allLines n

/-- Fuel-indexed form of the loop `for (let i = lineNumber; i >= 0; i--)` of
`getFunctionContext`, with the signed loop index explicit: `none` means the
fuel ran out before the loop returned, `some r` that the loop returned `r`. -/
def funcScanLoop (allLines : List (List Char)) : Nat → Int → Option (Option (List Char))
  | 0, _ => none
  | fuel + 1, i =>
    if i < 0 then some none
    else
      match lineFuncMatch (trim (allLines.getD i.toNat [])) with
      | some w => some (some w)
      | none => funcScanLoop allLines fuel (i - 1)

/-- Fuel-indexed form of the backward loop of `getClassContext`. -/
def classScanLoop (allLines : List (List Char)) : Nat → Int → Option (Option (List Char))
  | 0, _ => none
  | fuel + 1, i =>
    if i < 0 then some none
    else
      match classPat (trim (allLines.getD i.toNat [])) with
      | some w => some (some w)
      | none => classScanLoop allLines fuel (i - 1)

/-- A match attempt of the named-import regex
`import\s*\x7b\s*([^\x7d]+)\s*\x7d` at the current position.  The capture
runs from the end of the maximal whitespace run after the brace to the first
closing brace; when everything before that brace is whitespace, JS
backtracking leaves exactly the last whitespace character in the capture. -/
def namedAt (t : List Char) : Option (List Char) :=
  match lit ("import".toList) t with
  | none => none
  | some r =>
    match r.dropWhile isWS with
    | b :: r2 =>
      if b = openBrace then
        match indexOf r2 [closeBrace] with
        | none => none
        | some k =>
          if k = 0 then none
          else
            let m := (r2.takeWhile isWS).length
            if m < k then some ((r2.drop m).take (k - m))
            else some ((r2.drop (k - 1)).take 1)
      else none
    | [] => none

/-- Leftmost capture of the named-import regex on the line. -/
def namedImpCapture (line : List Char) : Option (List Char) :=
  firstSuffix namedAt line

/-- A match attempt of `import\s+(\w+)\s+from` at the current position. -/
def defaultAt (t : List Char) : Option (List Char) :=
  match kwTail ("import".toList) t with
  | none => none
  | some r1 =>
    match wordPlus r1 with
    | none => none
    | some (w, r2) =>
      match wsPlus r2 with
      | none => none
      | some r3 =>
        match lit ("from".toList) r3 with
        | some _ => some w
        | none => none

/-- Leftmost capture of the default-import regex on the line. -/
def defaultImpCapture (line : List Char) : Option (List Char) :=
  firstSuffix defaultAt line

/-- A match attempt of `import\s+\*\s+as\s+(\w+)\s+from` at the current
position. -/
def namespaceAt (t : List Char) : Option (List Char) :=
  match kwTail ("import".toList) t with
  | none => none
  | some r1 =>
    match charLit '*' r1 with
    | none => none
    | some r2 =>
      match wsPlus r2 with
      | none => none
      | some r3 =>
        match lit ("as".toList) r3 with
        | none => none
        | some r4 =>
          match wsPlus r4 with
          | none => none
          | some r5 =>
            match wordPlus r5 with
            | none => none
            | some (w, r6) =>
              match wsPlus r6 with
              | none => none
              | some r7 =>
                match lit ("from".toList) r7 with
                | some _ => some w
                | none => none

/-- Leftmost capture of the namespace-import regex on the line. -/
def namespaceImpCapture (line : List Char) : Option (List Char) :=
  firstSuffix namespaceAt line

/-- JavaScript `String.prototype.split` at the comma character. -/
def splitComma : List Char → List (List Char)
  | [] => [[]]
  | c :: t =>
    if c = ',' then [] :: splitComma t
    else
      match splitComma t with
      | h :: r => (c :: h) :: r
      | [] => [[c]]

/-- The method `extractImportedItems` (textAnalyzer.ts lines 440-462): the
named-import branch returns immediately; otherwise the default-import and
namespace-import captures are pushed in that order. -/
def extractImportedItems (line : List Char) : List (List Char) :=
  match namedImpCapture line with
  | some inner => (splitComma inner).map trim
  | none =>
    (match defaultImpCapture line with
     | some w => [w]
     | none => [])
    ++
    (match namespaceImpCapture line with
     | some w => [w]
     | none => [])

/-- The method `getSurroundingLines` (textAnalyzer.ts lines 385-390):
`allLines.slice(max(0, lineNumber - radius), min(length, lineNumber + radius + 1))`. -/
def getSurroundingLines (allLines : List (List Char)) (lineNumber radius : Nat) :
    List (List Char) :=
  (allLines.take (min allLines.length (lineNumber + radius + 1))).drop
    (lineNumber - radius)

/-- The method `getMatchContext` (textAnalyzer.ts lines 92-116). -/
def getMatchContext (lineText : List Char) (columnIndex : Nat)
    (allLines : List (List Char)) (lineNumber : Nat) : MatchContext where
  isInComment := isInComment lineText columnIndex
  isInString := isInString lineText columnIndex
  surroundingLines := some (getSurroundingLines allLines lineNumber 2)
  functionName := getFunctionContext allLines lineNumber
  className := getClassContext allLines lineNumber
  importedItems :=
    if isImportStatement (trim lineText) [] then some (extractImportedItems lineText)
    else none
  functionArguments := none

/-! Claims about the backward scans and the import extractor. -/

theorem gfc_some_iff (lines : List (List Char)) :
    ∀ (n : Nat) (nm : List Char),
      getFunctionContext lines n = some nm ↔
        ∃ i, i ≤ n ∧ lineFuncMatch (trim (lines.getD i [])) = some nm ∧
          ∀ j, i < j → j ≤ n → lineFuncMatch (trim (lines.getD j [])) = none := by
  intro n
  induction n with
  | zero =>
    intro nm
    constructor
    · intro h
      refine ⟨0, Nat.le_refl 0, ?_, ?_⟩
      · simpa [getFunctionContext] using h
      · intro j hj hj'
        omega
    · rintro ⟨i, hi, hF, _⟩
      have h0 : i = 0 := Nat.le_zero.mp hi
      subst h0
      simpa [getFunctionContext] using hF
  | succ n ih =>
    intro nm
    cases hF : lineFuncMatch (trim (lines.getD (n + 1) [])) with
    | some w =>
      have hg : getFunctionContext lines (n + 1) = some w := by
        simp only [getFunctionContext]
        rw [hF]
      constructor
      · intro h
        rw [hg] at h
        injection h with h
        subst h
        refine ⟨n + 1, Nat.le_refl _, hF, ?_⟩
        intro j hj hj'
        omega
      · rintro ⟨i, hi, hFi, hall⟩
        by_cases hin : i = n + 1
        · subst hin
          rw [hg, ← hFi, hF]
        · have hlt : i < n + 1 := Nat.lt_of_le_of_ne hi hin
          have hcontra := hall (n + 1) hlt (Nat.le_refl _)
          rw [hF] at hcontra
          exact absurd hcontra (by simp)
    | none =>
      have hg : getFunctionContext lines (n + 1) = getFunctionContext lines n := by
        simp only [getFunctionContext]
        rw [hF]
      rw [hg, ih nm]
      constructor
      · rintro ⟨i, hi, hFi, hall⟩
        refine ⟨i, Nat.le_trans hi (Nat.le_succ n), hFi, ?_⟩
        intro j h1 h2
        rcases Nat.lt_or_ge j (n + 1) with hj | hj
        · exact hall j h1 (Nat.lt_succ_iff.mp hj)
        · have hj2 : j = n + 1 := Nat.le_antisymm h2 hj
          subst hj2
          exact hF
      · rintro ⟨i, hi, hFi, hall⟩
        have hin : i ≠ n + 1 := by
          intro he
          subst he
          rw [hF] at hFi
          exact Option.noConfusion hFi
        have hi' : i ≤ n := Nat.lt_succ_iff.mp (Nat.lt_of_le_of_ne hi hin)
        refine ⟨i, hi', hFi, ?_⟩
        intro j h1 h2
        exact hall j h1 (Nat.le_trans h2 (Nat.le_succ n))

theorem gfc_none_iff (lines : List (List Char)) :
    ∀ n : Nat,
      getFunctionContext lines n = none ↔
        ∀ i, i ≤ n → lineFuncMatch (trim (lines.getD i [])) = none := by
  intro n
  induction n with
  | zero =>
    constructor
    · intro h i hi
      have h0 : i = 0 := Nat.le_zero.mp hi
      subst h0
      simpa [getFunctionContext] using h
    · intro h
      simpa [getFunctionContext] using h 0 (Nat.le_refl 0)
  | succ n ih =>
    cases hF : lineFuncMatch (trim (lines.getD (n + 1) [])) with
    | some w =>
      have hg : getFunctionContext lines (n + 1) = some w := by
        simp only [getFunctionContext]
        rw [hF]
      rw [hg]
      constructor
      · intro h
        exact absurd h (by simp)
      · intro h
        have hcontra := h (n + 1) (Nat.le_refl _)
        rw [hF] at hcontra
        exact absurd hcontra (by simp)
    | none =>
      have hg : getFunctionContext lines (n + 1) = getFunctionContext lines n := by
        simp only [getFunctionContext]
        rw [hF]
      rw [hg, ih]
      constructor
      · intro h j hj
        rcases Nat.lt_or_ge j (n + 1) with hjl | hjg
        · exact h j (Nat.lt_succ_iff.mp hjl)
        · have hj2 : j = n + 1 := Nat.le_antisymm hj hjg
          subst hj2
          exact hF
      · intro h i hi
        exact h i (Nat.le_trans hi (Nat.le_succ n))

/-- C7: for nonempty `allLines` and `lineNumber < length(allLines)`, the
backward scan of `getFunctionContext` returns the per-line capture of the
highest-index line at or below `lineNumber` whose trimmed text matches one
of the three patterns of `lineFuncMatch` (tried in the source's order), and
`none` when no line from `lineNumber` down to 0 matches; in particular on
`["function foo() {", "  return 1;", "}"]` at line 1 it returns `foo`. -/
theorem getFunctionContext_spec :
    (∀ (allLines : List (List Char)) (lineNumber : Nat),
       allLines ≠ [] → lineNumber < allLines.length →
       ((∀ nm, getFunctionContext allLines lineNumber = some nm ↔
          ∃ i, i ≤ lineNumber ∧ lineFuncMatch (trim (allLines.getD i [])) = some nm ∧
            ∀ j, i < j → j ≤ lineNumber →
              lineFuncMatch (trim (allLines.getD j [])) = none)
        ∧ (getFunctionContext allLines lineNumber = none ↔
          ∀ i, i ≤ lineNumber → lineFuncMatch (trim (allLines.getD i [])) = none)))
    ∧ getFunctionContext
        [("function foo() \x7b").toList, ("  return 1;").toList, ("\x7d").toList] 1
      = some ("foo".toList) := by
  constructor
  · intro allLines lineNumber _ _
    exact ⟨fun nm => gfc_some_iff allLines lineNumber nm, gfc_none_iff allLines lineNumber⟩
  · decide

/-- C7 witness: the characterization applied to the concrete example file at
line 1 with the name `foo`. -/
theorem getFunctionContext_spec_witness :
    getFunctionContext
        [("function foo() \x7b").toList, ("  return 1;").toList, ("\x7d").toList] 1
      = some ("foo".toList) ↔
      ∃ i, i ≤ 1 ∧
        lineFuncMatch (trim (([("function foo() \x7b").toList, ("  return 1;").toList,
          ("\x7d").toList]).getD i [])) = some ("foo".toList) ∧
        ∀ j, i < j → j ≤ 1 →
          lineFuncMatch (trim (([("function foo() \x7b").toList, ("  return 1;").toList,
            ("\x7d").toList]).getD j [])) = none :=
  (getFunctionContext_spec.1
      [("function foo() \x7b").toList, ("  return 1;").toList, ("\x7d").toList] 1
      (by decide) (by decide)).1 ("foo".toList)

/-- C8 counterexample: on a line holding two import statements (and no brace
group) the claim's "never from both" part fails: in one invocation the
default-import pattern contributes `y` and the namespace-import pattern
contributes `x`. -/
theorem extractImportedItems_both_cex :
    namedImpCapture
        ("import y from \x27b\x27; import * as x from \x27a\x27".toList) = none
    ∧ defaultImpCapture
        ("import y from \x27b\x27; import * as x from \x27a\x27".toList)
      = some ("y".toList)
    ∧ namespaceImpCapture
        ("import y from \x27b\x27; import * as x from \x27a\x27".toList)
      = some ("x".toList)
    ∧ extractImportedItems
        ("import y from \x27b\x27; import * as x from \x27a\x27".toList)
      = [("y".toList), ("x".toList)] := by decide

/-- C8 amended: when a named-import brace group matches, the result is
exactly the comma-split, trimmed contents of the first such group and the
default/namespace patterns are ignored; otherwise the result is the
default-import capture (if any) followed by the namespace-import capture
(if any), and both can contribute in the same invocation when the line
contains both patterns.  The two example lines of the specification behave
as stated. -/
theorem extractImportedItems_spec (line : List Char) :
    (∀ inner, namedImpCapture line = some inner →
      extractImportedItems line = (splitComma inner).map trim)
    ∧ (namedImpCapture line = none →
      extractImportedItems line =
        (defaultImpCapture line).toList ++ (namespaceImpCapture line).toList)
    ∧ extractImportedItems ("import \x7b a, b \x7d from \x27m\x27".toList)
      = [("a".toList), ("b".toList)]
    ∧ extractImportedItems ("import x from \x27m\x27".toList) = [("x".toList)] := by
  refine ⟨?_, ?_, by decide, by decide⟩
  · intro inner h
    rw [extractImportedItems, h]
  · intro h
    rw [extractImportedItems, h]
    cases defaultImpCapture line <;> cases namespaceImpCapture line <;>
      simp [Option.toList]

/-- C8 witness: the no-brace branch applied to the default-import example. -/
theorem extractImportedItems_spec_witness :
    extractImportedItems ("import x from \x27m\x27".toList) =
      (defaultImpCapture ("import x from \x27m\x27".toList)).toList
      ++ (namespaceImpCapture ("import x from \x27m\x27".toList)).toList :=
  (extractImportedItems_spec ("import x from \x27m\x27".toList)).2.1 (by decide)

theorem funcScanLoop_eq (allLines : List (List Char)) :
    ∀ n : Nat, funcScanLoop allLines (n + 2) (n : Int)
      = some (getFunctionContext allLines n) := by
  intro n
  induction n with
  | zero =>
    have e2 : getFunctionContext allLines 0
        = lineFuncMatch (trim (allLines.getD 0 [])) := rfl
    rw [e2, show (0 : Nat) + 2 = 1 + 1 from rfl]
    simp only [funcScanLoop]
    rw [if_neg (by omega), show (((0 : Nat) : Int)).toNat = 0 from rfl]
    cases hF : lineFuncMatch (trim (allLines.getD 0 [])) with
    | some w => rfl
    | none => rfl
  | succ n ih =>
    have hcast : ((n + 1 : Nat) : Int) - 1 = (n : Int) := by push_cast; ring
    cases hF : lineFuncMatch (trim (allLines.getD (n + 1) [])) with
    | some w =>
      have e2 : getFunctionContext allLines (n + 1) = some w := by
        simp only [getFunctionContext]
        rw [hF]
      rw [e2, show (n + 1) + 2 = (n + 2) + 1 from rfl, funcScanLoop]
      rw [if_neg (by omega), Int.toNat_natCast, hF]
    | none =>
      have e2 : getFunctionContext allLines (n + 1) = getFunctionContext allLines n := by
        simp only [getFunctionContext]
        rw [hF]
      rw [e2, show (n + 1) + 2 = (n + 2) + 1 from rfl, funcScanLoop]
      rw [if_neg (by omega), Int.toNat_natCast, hF, hcast, ih]

theorem classScanLoop_eq (allLines : List (List Char)) :
    ∀ n : Nat, classScanLoop allLines (n + 2) (n : Int)
      = some (getClassContext allLines n) := by
  intro n
  induction n with
  | zero =>
    have e2 : getClassContext allLines 0
        = classPat (trim (allLines.getD 0 [])) := rfl
    rw [e2, show (0 : Nat) + 2 = 1 + 1 from rfl]
    simp only [classScanLoop]
    rw [if_neg (by omega), show (((0 : Nat) : Int)).toNat = 0 from rfl]
    cases hF : classPat (trim (allLines.getD 0 [])) with
    | some w => rfl
    | none => rfl
  | succ n ih =>
    have hcast : ((n + 1 : Nat) : Int) - 1 = (n : Int) := by push_cast; ring
    cases hF : classPat (trim (allLines.getD (n + 1) [])) with
    | some w =>
      have e2 : getClassContext allLines (n + 1) = some w := by
        simp only [getClassContext]
        rw [hF]
      rw [e2, show (n + 1) + 2 = (n + 2) + 1 from rfl, classScanLoop]
      rw [if_neg (by omega), Int.toNat_natCast, hF]
    | none =>
      have e2 : getClassContext allLines (n + 1) = getClassContext allLines n := by
        simp only [getClassContext]
        rw [hF]
      rw [e2, show (n + 1) + 2 = (n + 2) + 1 from rfl, classScanLoop]
      rw [if_neg (by omega), Int.toNat_natCast, hF, hcast, ih]

/-- C10: under the precondition `lineNumber < length(allLines)`, both
backward scans terminate — the signed loop index strictly decreases and fuel
`lineNumber + 2` (one unit per iteration plus the final negative-index
check) lets the explicit loop return — and the returned value is the scan's
definite optional result. -/
theorem backward_scans_terminate (allLines : List (List Char)) (lineNumber : Nat)
    (h : lineNumber < allLines.length) :
    funcScanLoop allLines (lineNumber + 2) (lineNumber : Int)
      = some (getFunctionContext allLines lineNumber)
    ∧ classScanLoop allLines (lineNumber + 2) (lineNumber : Int)
      = some (getClassContext allLines lineNumber) :=
  ⟨funcScanLoop_eq allLines lineNumber, classScanLoop_eq allLines lineNumber⟩

/-- C10 witness: the loop equivalence at a concrete one-line file. -/
theorem backward_scans_terminate_witness :
    funcScanLoop [[]] (0 + 2) ((0 : Nat) : Int) = some (getFunctionContext [[]] 0)
    ∧ classScanLoop [[]] (0 + 2) ((0 : Nat) : Int) = some (getClassContext [[]] 0) :=
  backward_scans_terminate [[]] 0 (by decide)

end TextAnalyzer
